import Mathlib

/-!
Verification of the manifest-graph core and project-descriptor utilities of
astronomer-cosmos.

The embedding covers:
* cosmos/dbt/project.py: the value-conversion heuristic, dot-notation nested
  key insertion, and the dbt_project.yml rewrite entry point, translated from
  the source;
* the dbt graph component (node construction, standard and streaming manifest
  decoding, mode selection, selector resolution and graph assembly), whose
  implementation module is not part of the available sources; those
  definitions are modelled from the specification, as indicated in their doc
  comments.

Python values are embedded as the inductive type PyValue; Python dicts are
insertion-ordered association lists; the filesystem is a map from path to
file content observed at the granularity the code inspects it.
-/

set_option maxHeartbeats 1000000

namespace Cosmos

/-- Embedding of the Python values the code manipulates: strings, booleans,
ints, floats (held exactly as rationals, which is faithful for the small
decimal literals involved), None, lists and (insertion-ordered) dicts. -/
inductive PyValue where
  | pstr (s : String)
  | pbool (b : Bool)
  | pint (n : Int)
  | pfloat (q : Rat)
  | pnone
  | plist (xs : List PyValue)
  | pdict (entries : List (String × PyValue))

/-- A Python dict with string keys, as an insertion-ordered association list. -/
abbrev PyDict := List (String × PyValue)

/-- Lookup in an association list: first binding of the key wins (keys are
unique under Python dict discipline, so this is Python dict lookup). -/
def alistGet {β : Type} : List (String × β) → String → Option β
  | [], _ => none
  | (k', v) :: rest, k => if k' = k then some v else alistGet rest k

/-- Python dict assignment d[k] = v: replace the binding in place when the key
exists, append a new binding otherwise. -/
def alistSet {β : Type} : List (String × β) → String → β → List (String × β)
  | [], k, v => [(k, v)]
  | (k', v') :: rest, k, v =>
    if k' = k then (k', v) :: rest else (k', v') :: alistSet rest k v

/-- ASCII lowercase of one character, as Python str.lower does on the ASCII
range (the code only compares against ASCII keywords). -/
def lowerChar (c : Char) : Char :=
  if 65 ≤ c.toNat ∧ c.toNat ≤ 90 then Char.ofNat (c.toNat + 32) else c

/-- Python value.lower() on the character list of a string. -/
def pyLower (s : String) : String :=
  String.mk (s.data.map lowerChar)

/-- Python whitespace accepted by int()/float() around a numeric literal. -/
def isPySpace (c : Char) : Bool :=
  c = ' ' || c = '\t' || c = '\n' || c = '\r' || c = '\x0b' || c = '\x0c'

/-- Strip leading and trailing whitespace from a character list. -/
def stripPySpaces (cs : List Char) : List Char :=
  ((cs.dropWhile isPySpace).reverse.dropWhile isPySpace).reverse

/-- Numeric value of a list of decimal digit characters. -/
def digitsToNat (ds : List Char) : Nat :=
  ds.foldl (fun a c => a * 10 + (c.toNat - 48)) 0

/-- Digit run with Python underscore grouping, consuming the whole input:
digits with single underscores strictly between digits.  The flag records
whether the previous character was a digit (so an underscore is allowed). -/
def udigitsAux : List Char → Bool → Option (List Char)
  | [], allowEnd => if allowEnd then some [] else none
  | c :: cs, allowUnd =>
    if c.isDigit then (udigitsAux cs true).map (fun ds => c :: ds)
    else if c = '_' ∧ allowUnd then udigitsAux cs false
    else none

/-- Python int(s) on a string: optional surrounding whitespace, optional sign,
then a nonempty digit run with underscore grouping. -/
def pyIntOfString (s : String) : Option Int :=
  let cs := stripPySpaces s.data
  match cs with
  | '-' :: r =>
    (udigitsAux r false).map (fun ds => -(digitsToNat ds : Int))
  | '+' :: r =>
    (udigitsAux r false).map (fun ds => (digitsToNat ds : Int))
  | _ =>
    (udigitsAux cs false).map (fun ds => (digitsToNat ds : Int))

/-- Maximal digit prefix with underscore grouping: requires a leading digit,
keeps consuming digits and properly-placed underscores, returns the digits
(with underscores removed) and the unconsumed remainder. -/
def takeUDigitsAux : List Char → Option (List Char × List Char)
  | [] => some ([], [])
  | '_' :: cs =>
    match cs with
    | d :: cs2 =>
      if d.isDigit then
        (takeUDigitsAux cs2).map (fun p => (d :: p.1, p.2))
      else none
    | [] => none
  | c :: cs =>
    if c.isDigit then (takeUDigitsAux cs).map (fun p => (c :: p.1, p.2))
    else some ([], c :: cs)

/-- Digit prefix with underscore grouping, requiring at least one digit. -/
def takeUDigits : List Char → Option (List Char × List Char)
  | [] => none
  | c :: cs =>
    if c.isDigit then takeUDigitsAux (c :: cs) else none

/-- Mantissa of a Python float literal: digits, digits.digits, digits., or
.digits, with underscore grouping.  Returns the mantissa as a natural number,
the number of fractional digits, and the unconsumed remainder. -/
def pyFloatMantissa (cs : List Char) : Option (Nat × Nat × List Char) :=
  match cs with
  | '.' :: r =>
    match takeUDigits r with
    | some (fd, rest) => some (digitsToNat fd, fd.length, rest)
    | none => none
  | _ =>
    match takeUDigits cs with
    | some (ip, rest) =>
      match rest with
      | '.' :: r2 =>
        match takeUDigits r2 with
        | some (fd, rest2) =>
          some (digitsToNat ip * 10 ^ fd.length + digitsToNat fd, fd.length, rest2)
        | none => some (digitsToNat ip, 0, r2)
      | _ => some (digitsToNat ip, 0, rest)
    | none => none

/-- Optional exponent part of a Python float literal. -/
def pyFloatExponent (cs : List Char) : Option (Int × List Char) :=
  match cs with
  | [] => some (0, [])
  | c :: r =>
    if c = 'e' ∨ c = 'E' then
      match r with
      | '-' :: r2 =>
        match takeUDigits r2 with
        | some (ed, rest) => some (-(digitsToNat ed : Int), rest)
        | none => none
      | '+' :: r2 =>
        match takeUDigits r2 with
        | some (ed, rest) => some ((digitsToNat ed : Int), rest)
        | none => none
      | _ =>
        match takeUDigits r with
        | some (ed, rest) => some ((digitsToNat ed : Int), rest)
        | none => none
    else some (0, c :: r)

/-- Python float(s) on a finite decimal literal: optional surrounding
whitespace, optional sign, mantissa and optional exponent.  The inf/nan
spellings contain no decimal point and are never reached by the caller,
which only tries float on strings containing a point. -/
def pyFloatOfString (s : String) : Option Rat :=
  let cs0 := stripPySpaces s.data
  let signAndRest : Rat × List Char :=
    match cs0 with
    | '-' :: r => (-1, r)
    | '+' :: r => (1, r)
    | _ => (1, cs0)
  match pyFloatMantissa signAndRest.2 with
  | none => none
  | some (mv, fl, rest) =>
    match pyFloatExponent rest with
    | none => none
    | some (ex, rest2) =>
      if rest2 = [] then
        let base : Rat := signAndRest.1 * ((mv : Rat) / ((10 : Rat) ^ fl))
        some (if 0 ≤ ex then base * (10 : Rat) ^ ex.toNat
              else base / (10 : Rat) ^ (-ex).toNat)
      else none

/-- JSON insignificant whitespace. -/
def isJsonWs (c : Char) : Bool :=
  c = ' ' || c = '\t' || c = '\n' || c = '\r'

/-- Drop leading JSON whitespace. -/
def skipWs (cs : List Char) : List Char :=
  cs.dropWhile isJsonWs

/-- Value of a hexadecimal digit character. -/
def hexDigitVal (c : Char) : Option Nat :=
  if 48 ≤ c.toNat ∧ c.toNat ≤ 57 then some (c.toNat - 48)
  else if 97 ≤ c.toNat ∧ c.toNat ≤ 102 then some (c.toNat - 87)
  else if 65 ≤ c.toNat ∧ c.toNat ≤ 70 then some (c.toNat - 55)
  else none

/-- Body of a JSON string after the opening quote: characters and escape
sequences up to the closing quote, returning the decoded string and the
remainder. -/
def parseJsonStringAux : List Char → List Char → Option (String × List Char)
  | _, [] => none
  | acc, c :: cs =>
    if c = '"' then some (String.mk acc.reverse, cs)
    else if c = '\\' then
      match cs with
      | [] => none
      | e :: cs2 =>
        if e = '"' then parseJsonStringAux ('"' :: acc) cs2
        else if e = '\\' then parseJsonStringAux ('\\' :: acc) cs2
        else if e = '/' then parseJsonStringAux ('/' :: acc) cs2
        else if e = 'b' then parseJsonStringAux ('\x08' :: acc) cs2
        else if e = 'f' then parseJsonStringAux ('\x0c' :: acc) cs2
        else if e = 'n' then parseJsonStringAux ('\n' :: acc) cs2
        else if e = 'r' then parseJsonStringAux ('\r' :: acc) cs2
        else if e = 't' then parseJsonStringAux ('\t' :: acc) cs2
        else if e = 'u' then
          match cs2 with
          | h1 :: h2 :: h3 :: h4 :: cs3 =>
            match hexDigitVal h1, hexDigitVal h2, hexDigitVal h3, hexDigitVal h4 with
            | some a, some b, some c2, some d =>
              parseJsonStringAux
                (Char.ofNat (((a * 16 + b) * 16 + c2) * 16 + d) :: acc) cs3
            | _, _, _, _ => none
          | _ => none
        else none
    else parseJsonStringAux (c :: acc) cs

/-- A JSON number per the strict json grammar: optional minus, integer part
without superfluous leading zero, optional fraction, optional exponent.
Numbers with a fraction or an exponent decode as Python floats, the rest as
Python ints, matching json.loads. -/
def parseJsonNumber (cs : List Char) : Option (PyValue × List Char) :=
  let signAndRest : Int × List Char :=
    match cs with
    | '-' :: r => (-1, r)
    | _ => (1, cs)
  let ip := signAndRest.2.takeWhile Char.isDigit
  let rest1 := signAndRest.2.dropWhile Char.isDigit
  if ip = [] then none
  else if 1 < ip.length ∧ ip.head? = some '0' then none
  else
    let fracPart : Option (List Char × List Char) :=
      match rest1 with
      | '.' :: r =>
        let fd := r.takeWhile Char.isDigit
        if fd = [] then none else some (fd, r.dropWhile Char.isDigit)
      | _ => some ([], rest1)
    match fracPart with
    | none => none
    | some (fd, rest2) =>
      let expPart : Option (Option Int × List Char) :=
        match rest2 with
        | c :: r =>
          if c = 'e' ∨ c = 'E' then
            match r with
            | '-' :: r2 =>
              let ed := r2.takeWhile Char.isDigit
              if ed = [] then none
              else some (some (-(digitsToNat ed : Int)), r2.dropWhile Char.isDigit)
            | '+' :: r2 =>
              let ed := r2.takeWhile Char.isDigit
              if ed = [] then none
              else some (some ((digitsToNat ed : Int)), r2.dropWhile Char.isDigit)
            | _ =>
              let ed := r.takeWhile Char.isDigit
              if ed = [] then none
              else some (some ((digitsToNat ed : Int)), r.dropWhile Char.isDigit)
          else some (none, c :: r)
        | [] => some (none, [])
      match expPart with
      | none => none
      | some (exOpt, rest3) =>
        if fd = [] ∧ exOpt = none then
          some (.pint (signAndRest.1 * (digitsToNat ip : Int)), rest3)
        else
          let ex := exOpt.getD 0
          let base : Rat :=
            (signAndRest.1 : Rat) *
              (((digitsToNat ip * 10 ^ fd.length + digitsToNat fd : Nat) : Rat) /
                ((10 : Rat) ^ fd.length))
          some (.pfloat (if 0 ≤ ex then base * (10 : Rat) ^ ex.toNat
                         else base / (10 : Rat) ^ (-ex).toNat), rest3)

/-- Parsing mode of the JSON recursive-descent loop: a value, the members of
an object being accumulated, or the elements of an array being accumulated. -/
inductive JMode where
  | val
  | members (acc : PyDict)
  | elems (acc : List PyValue)

/-- Fuel-indexed JSON recursive descent.  In value mode it decodes one JSON
value; object members are accumulated with Python dict assignment, so a
duplicated key keeps the later value exactly as json.loads does. -/
def parseJ : Nat → JMode → List Char → Option (PyValue × List Char)
  | 0, _, _ => none
  | fuel + 1, .val, cs =>
    match skipWs cs with
    | [] => none
    | c :: rest =>
      if c = '\x7b' then
        match skipWs rest with
        | '\x7d' :: r2 => some (.pdict [], r2)
        | r2 => parseJ fuel (.members []) r2
      else if c = '[' then
        match skipWs rest with
        | ']' :: r2 => some (.plist [], r2)
        | r2 => parseJ fuel (.elems []) r2
      else if c = '"' then
        match parseJsonStringAux [] rest with
        | some (s, r2) => some (.pstr s, r2)
        | none => none
      else if c = 't' then
        match rest with
        | 'r' :: 'u' :: 'e' :: r2 => some (.pbool true, r2)
        | _ => none
      else if c = 'f' then
        match rest with
        | 'a' :: 'l' :: 's' :: 'e' :: r2 => some (.pbool false, r2)
        | _ => none
      else if c = 'n' then
        match rest with
        | 'u' :: 'l' :: 'l' :: r2 => some (.pnone, r2)
        | _ => none
      else parseJsonNumber (c :: rest)
  | fuel + 1, .members acc, cs =>
    match skipWs cs with
    | '"' :: r =>
      match parseJsonStringAux [] r with
      | none => none
      | some (k, r2) =>
        match skipWs r2 with
        | ':' :: r3 =>
          match parseJ fuel .val r3 with
          | none => none
          | some (v, r4) =>
            match skipWs r4 with
            | ',' :: r5 => parseJ fuel (.members (alistSet acc k v)) r5
            | '\x7d' :: r5 => some (.pdict (alistSet acc k v), r5)
            | _ => none
        | _ => none
    | _ => none
  | fuel + 1, .elems acc, cs =>
    match parseJ fuel .val cs with
    | none => none
    | some (v, r) =>
      match skipWs r with
      | ',' :: r2 => parseJ fuel (.elems (acc ++ [v])) r2
      | ']' :: r2 => some (.plist (acc ++ [v]), r2)
      | _ => none

/-- Python json.loads: decode one JSON value and require only whitespace to
remain. -/
def jsonLoads (s : String) : Option PyValue :=
  match parseJ (2 * s.length + 2) .val s.data with
  | some (v, rest) => if skipWs rest = [] then some v else none
  | none => none

/-- Python value.startswith(("[", "\x7b")): the string opens with a JSON
bracket. -/
def startsWithJsonBracket (s : String) : Bool :=
  match s.data with
  | c :: _ => c = '[' || c = '\x7b'
  | [] => false

/-- The string contains a decimal point, as the Python membership check
"." in value. -/
def containsDot (s : String) : Bool :=
  s.data.contains '.'

/-- Translation of _convert_yaml_value from cosmos/dbt/project.py: heuristic
conversion of a string to a typed value, in the source's branch order —
boolean words, null words, JSON-bracketed strings, then numbers (float when a
decimal point is present, int otherwise), falling back to the original
string; non-string values are returned unchanged. -/
def _convert_yaml_value (v : PyValue) : PyValue :=
  match v with
  | .pstr s =>
    if pyLower s = "true" ∨ pyLower s = "yes" ∨ pyLower s = "on" then .pbool true
    else if pyLower s = "false" ∨ pyLower s = "no" ∨ pyLower s = "off" then .pbool false
    else if pyLower s = "null" ∨ pyLower s = "none" ∨ pyLower s = "~" ∨ pyLower s = "" then
      .pnone
    else
      match (if startsWithJsonBracket s then jsonLoads s else none) with
      | some j => j
      | none =>
        if containsDot s then
          match pyFloatOfString s with
          | some q => .pfloat q
          | none => .pstr s
        else
          match pyIntOfString s with
          | some n => .pint n
          | none => .pstr s
  | w => w

/-- Python key.split(".") on the character list: dot-separated segments,
empty segments preserved, the empty string splitting to [""]. -/
def splitDotAux : List Char → List Char → List String
  | [], acc => [String.mk acc.reverse]
  | c :: cs, acc =>
    if c = '.' then String.mk acc.reverse :: splitDotAux cs []
    else splitDotAux cs (c :: acc)

/-- Dot-notation key split, as Python key.split("."). -/
def splitOnDot (s : String) : List String :=
  splitDotAux s.data []

/-- Core of _set_nested_key over the already-split segments: walk the
intermediate segments, entering an existing sub-dict, creating a fresh one
for a missing key, and replacing a non-dict value with a fresh dict (the
replacement is the warned overwrite, recorded in the boolean), then bind the
final segment to the converted value. -/
def setNestedKeyGo : PyDict → List String → PyValue → PyDict × Bool
  | d, [], _ => (d, false)
  | d, [k], v => (alistSet d k (_convert_yaml_value v), false)
  | d, k :: k2 :: rest, v =>
    match alistGet d k with
    | some (.pdict sub) =>
      (alistSet d k (.pdict (setNestedKeyGo sub (k2 :: rest) v).1),
       (setNestedKeyGo sub (k2 :: rest) v).2)
    | some _ =>
      (alistSet d k (.pdict (setNestedKeyGo [] (k2 :: rest) v).1), true)
    | none =>
      (alistSet d k (.pdict (setNestedKeyGo [] (k2 :: rest) v).1),
       (setNestedKeyGo [] (k2 :: rest) v).2)

/-- Translation of _set_nested_key from cosmos/dbt/project.py, returned
functionally: the updated mapping together with whether the overwrite warning
was emitted. -/
def _set_nested_key (d : PyDict) (key : String) (v : PyValue) : PyDict × Bool :=
  setNestedKeyGo d (splitOnDot key) v

/-- Content of a file as the rewrite entry point observes it: a YAML document
that loads to an optional mapping (none modelling an empty document, which
yaml.safe_load reads as None), or a document whose load raises a YAML error
with the given message. -/
inductive YamlFile where
  | parsed (d : Option PyDict)
  | malformed (err : String)

/-- A filesystem, at the granularity the code observes: each path either
holds a file or is absent. -/
abbrev FileSys := String → Option YamlFile

/-- Errors apply_project_keys_to_dbt_project_yml can raise. -/
inductive ApplyError where
  | fileNotFound (msg : String)
  | yamlErr (err : String)

/-- Location of the project descriptor inside a project directory. -/
def dbtProjectYmlPath (projectPath : String) : String :=
  projectPath ++ "/dbt_project.yml"

/-- Point update of a filesystem, modelling the write-back of the descriptor. -/
def fsWrite (fs : FileSys) (p : String) (f : YamlFile) : FileSys :=
  fun q => if q = p then some f else fs q

/-- Translation of apply_project_keys_to_dbt_project_yml from
cosmos/dbt/project.py: return immediately on a falsy (empty) key mapping,
fail with FileNotFoundError when the descriptor is absent, propagate the YAML
error of an unparseable descriptor, and otherwise fold every dot-notated key
into the loaded configuration (an empty document loading as None is replaced
by an empty mapping) and write the result back. -/
def apply_project_keys_to_dbt_project_yml (fs : FileSys) (projectPath : String)
    (projectKeys : List (String × PyValue)) : Except ApplyError FileSys :=
  if projectKeys.isEmpty then .ok fs
  else
    let p := dbtProjectYmlPath projectPath
    match fs p with
    | none => .error (.fileNotFound ("dbt_project.yml not found at " ++ p))
    | some (.malformed e) => .error (.yamlErr e)
    | some (.parsed d0) =>
      let cfg := projectKeys.foldl
        (fun c kv => (_set_nested_key c kv.1 kv.2).1) (d0.getD [])
      .ok (fsWrite fs p (.parsed (some cfg)))

/-- Modelled from the spec: the resource-type enumeration of the Node model
(§3) — model, seed, snapshot, test, source, analysis, operation, with a
catch-all variant for unrecognized textual values. -/
inductive DbtResourceType where
  | model
  | seed
  | snapshot
  | test
  | source
  | analysis
  | operation
  | other
deriving DecidableEq

/-- The textual resource-type values with a dedicated variant. -/
def knownResourceTypes : List String :=
  ["model", "seed", "snapshot", "test", "source", "analysis", "operation"]

/-- Modelled from the spec: mapping of the manifest's resource_type string to
the enumerated variant, unrecognized or missing values mapping to the
catch-all variant rather than failing (§3, §4.1). -/
def parseResourceType (s : String) : DbtResourceType :=
  if s = "model" then .model
  else if s = "seed" then .seed
  else if s = "snapshot" then .snapshot
  else if s = "test" then .test
  else if s = "source" then .source
  else if s = "analysis" then .analysis
  else if s = "operation" then .operation
  else .other

/-- Modelled from the spec: the Node model (§3) — one project resource with
its identity, type, declaring package, defining file path, ordered
dependencies, tags and untyped configuration mapping. -/
structure DbtNode where
  unique_id : String
  resource_type : DbtResourceType
  package_name : String
  file_path : String
  depends_on : List String
  tags : List String
  config : PyDict

/-- Modelled from the spec: the raw, loosely-typed manifest entry handed to
the Node constructor (§4.1, §6) — every field optional. -/
structure RawNodeRecord where
  resource_type : Option String := none
  package_name : Option String := none
  original_file_path : Option String := none
  depends_on_nodes : Option (List String) := none
  tags : Option (List String) := none
  config : Option PyDict := none

/-- Modelled from the spec: the node constructor of DbtGraph (§4.1), absent
from the available sources.  It returns none — not an error — when the record
has no non-empty file path (the external-reference exclusion rule), and
otherwise builds a node taking each field from the record, defaulting missing
depends_on, tags and config, and mapping unrecognized resource types to the
catch-all variant. -/
def _create_node_from_dict (uid : String) (record : RawNodeRecord) : Option DbtNode :=
  match record.original_file_path with
  | none => none
  | some fp =>
    if fp = "" then none
    else
      some { unique_id := uid
             resource_type := parseResourceType (record.resource_type.getD "")
             package_name := record.package_name.getD ""
             file_path := fp
             depends_on := record.depends_on_nodes.getD []
             tags := record.tags.getD []
             config := record.config.getD [] }

/-- Modelled from the spec: the decoded shape of a well-formed manifest —
the nodes collection and the sources collection, each a keyed sequence of
raw records (§6). -/
structure Manifest where
  nodes : List (String × RawNodeRecord)
  sources : List (String × RawNodeRecord)

/-- Read a decoded JSON value as a string, anything else as absent. -/
def asStr : Option PyValue → Option String
  | some (.pstr s) => some s
  | _ => none

/-- Read a decoded JSON list as a list of strings, anything else as absent. -/
def strListOf : List PyValue → Option (List String)
  | [] => some []
  | .pstr s :: rest => (strListOf rest).map (fun l => s :: l)
  | _ => none

/-- Read a decoded JSON value as a list of strings. -/
def asStrList : Option PyValue → Option (List String)
  | some (.plist xs) => strListOf xs
  | _ => none

/-- Read a decoded JSON value as a mapping, anything else as absent. -/
def asDict : Option PyValue → Option PyDict
  | some (.pdict d) => some d
  | _ => none

/-- Raw record extraction from one decoded manifest entry: the fields the
Node constructor consumes, read loosely (a missing or ill-shaped field is
absent), with dependencies taken from depends_on.nodes. -/
def toRawRecord : PyValue → Option RawNodeRecord
  | .pdict d =>
    some { resource_type := asStr (alistGet d "resource_type")
           package_name := asStr (alistGet d "package_name")
           original_file_path := asStr (alistGet d "original_file_path")
           depends_on_nodes :=
             (asDict (alistGet d "depends_on")).bind
               (fun dd => asStrList (alistGet dd "nodes"))
           tags := asStrList (alistGet d "tags")
           config := asDict (alistGet d "config") }
  | _ => none

/-- Raw record extraction over a keyed collection of decoded entries. -/
def toRecordEntries : List (String × PyValue) → Option (List (String × RawNodeRecord))
  | [] => some []
  | (k, v) :: rest =>
    match toRawRecord v with
    | some r => (toRecordEntries rest).map (fun l => (k, r) :: l)
    | none => none

/-- Modelled from the spec: the structured-shape check of the decoders — the
root must be a mapping whose nodes and sources collections (absent ones
reading as empty) are mappings of well-shaped entries (§6). -/
def toManifest : PyValue → Option Manifest
  | .pdict d =>
    match (alistGet d "nodes").getD (.pdict []),
          (alistGet d "sources").getD (.pdict []) with
    | .pdict nd, .pdict sd =>
      match toRecordEntries nd, toRecordEntries sd with
      | some ns, some ss => some { nodes := ns, sources := ss }
      | _, _ => none
    | _, _ => none
  | _ => none

/-- Decoding of manifest bytes to the structured manifest: JSON decoding
followed by the shape check; none models the MalformedManifest condition. -/
def parseManifest (s : String) : Option Manifest :=
  (jsonLoads s).bind toManifest

/-- One keyed entry fed through the Node constructor, keyed by its unique id
when a node results. -/
def mkNodeEntry (e : String × RawNodeRecord) : Option (String × DbtNode) :=
  (_create_node_from_dict e.1 e.2).map (fun n => (e.1, n))

/-- Modelled from the spec: the standard decoder (§4.2) — with the document
fully materialized, every entry of the nodes and sources collections is fed
through the Node constructor and the non-absent results are retained. -/
def standard_decode (m : Manifest) : List (String × DbtNode) :=
  (m.nodes ++ m.sources).filterMap mkNodeEntry

/-- The entry-at-a-time event stream an incremental decoder visits: the keyed
entries of the nodes collection followed by those of the sources
collection. -/
def manifestEvents (m : Manifest) : List (String × RawNodeRecord) :=
  m.nodes ++ m.sources

/-- One streaming step: feed the entry through the Node constructor and, when
a node results, bind it in the accumulated mapping. -/
def streamingStep (acc : List (String × DbtNode)) (e : String × RawNodeRecord) :
    List (String × DbtNode) :=
  match _create_node_from_dict e.1 e.2 with
  | some n => alistSet acc e.1 n
  | none => acc

/-- Modelled from the spec: the streaming decoder (§4.3) — entries are
visited one at a time and each emitted node is accumulated immediately,
without the full collection ever being materialized. -/
def streaming_decode (evs : List (String × RawNodeRecord)) : List (String × DbtNode) :=
  evs.foldl streamingStep []

/-- Error taxonomy of a load (§7): the manifest bytes do not decode as the
expected structured format, or a requested selector has no definition. -/
inductive LoadError where
  | malformedManifest
  | selectorNotFound (msg : String)

/-- Modelled from the spec: DbtGraph.load_from_dbt_manifest, absent from the
available sources — the standard decode path, raising MalformedManifest when
the bytes do not decode. -/
def load_from_dbt_manifest (s : String) : Except LoadError (List (String × DbtNode)) :=
  match parseManifest s with
  | none => .error .malformedManifest
  | some m => .ok (standard_decode m)

/-- Modelled from the spec: DbtGraph.load_from_dbt_manifest_streaming, absent
from the available sources — the incremental decode path over the entry
event stream, raising MalformedManifest when the bytes do not decode. -/
def load_from_dbt_manifest_streaming (s : String) :
    Except LoadError (List (String × DbtNode)) :=
  match parseManifest s with
  | none => .error .malformedManifest
  | some m => .ok (streaming_decode (manifestEvents m))

/-- Modelled from the spec: the mode-selection method of DbtGraph (§4.4),
absent from the available sources — a pure function of the feature flag, the
threshold in megabytes, the manifest byte size and the availability of the
incremental-decoding capability: false when the flag is off, false below the
threshold, and otherwise the capability probe (an unavailable capability
degrades to false, it never errors). -/
def _should_use_streaming_manifest_mode (enableStreaming : Bool)
    (thresholdMb : Nat) (manifestSizeBytes : Nat) (ijsonAvailable : Bool) : Bool :=
  if enableStreaming = false then false
  else if manifestSizeBytes < thresholdMb * 1024 * 1024 then false
  else ijsonAvailable

/-- Modelled from the spec: the assembled Graph (§3) — the full node mapping
and the filtered subset selected for the current run. -/
structure Graph where
  nodes : List (String × DbtNode)
  filtered_nodes : List (String × DbtNode)

/-- Named selector definitions, each already resolved to the node-id set it
denotes (the selector expression grammar is external to this core, §4.5). -/
abbrev SelectorDefs := List (String × List String)

/-- Modelled from the spec: the selector resolver (§4.5) — resolve a
requested name against the definitions, failing with SelectorNotFound naming
the requested selector when no definition exists. -/
def resolveSelector (defs : SelectorDefs) (name : String) :
    Except LoadError (List String) :=
  match alistGet defs name with
  | none => .error (.selectorNotFound ("Selectors not found: " ++ name))
  | some ids => .ok ids

/-- Modelled from the spec: the graph assembler (§4.6) — with no selector
requested the filtered mapping is the full node mapping itself; otherwise the
resolver's id set restricts the node mapping, and resolver failures
propagate. -/
def assembleGraph (nodes : List (String × DbtNode)) (defs : SelectorDefs)
    (selector : Option String) : Except LoadError Graph :=
  match selector with
  | none => .ok { nodes := nodes, filtered_nodes := nodes }
  | some name =>
    match resolveSelector defs name with
    | .error e => .error e
    | .ok ids =>
      .ok { nodes := nodes
            filtered_nodes := nodes.filter (fun kn => ids.contains kn.1) }

/-- Modelled from the spec: the load pipeline (§4.6) — decode with the chosen
decoder, then assemble; every decoder or resolver failure propagates and no
graph is returned on failure. -/
def loadDbtGraph (s : String) (defs : SelectorDefs) (selector : Option String)
    (useStreaming : Bool) : Except LoadError Graph :=
  match (if useStreaming then load_from_dbt_manifest_streaming s
         else load_from_dbt_manifest s) with
  | .error e => .error e
  | .ok nodes => assembleGraph nodes defs selector

/-- The string hay contains the string needle (here always as a suffix). -/
def strIncludes (hay needle : String) : Prop :=
  ∃ pre, hay = pre ++ needle

/-!  Specification-side definitions, written from the claims' words, to be
compared with the definitions translated from the source. -/

/-- The conversion heuristic as the specification words it: boolean words to
booleans, null words to null, JSON-bracketed strings that parse to the parsed
JSON value, an int when the string parses as an integer and contains no
decimal point, a float when it contains a decimal point and parses as a
float, the original string otherwise, and non-string inputs unchanged. -/
def convertYamlValueSpec (v : PyValue) : PyValue :=
  match v with
  | .pstr s =>
    if pyLower s = "true" ∨ pyLower s = "yes" ∨ pyLower s = "on" then .pbool true
    else if pyLower s = "false" ∨ pyLower s = "no" ∨ pyLower s = "off" then .pbool false
    else if pyLower s = "null" ∨ pyLower s = "none" ∨ pyLower s = "~" ∨ pyLower s = "" then
      .pnone
    else if startsWithJsonBracket s = true ∧ (jsonLoads s).isSome then
      (jsonLoads s).getD .pnone
    else if containsDot s = false ∧ (pyIntOfString s).isSome then
      .pint ((pyIntOfString s).getD 0)
    else if containsDot s = true ∧ (pyFloatOfString s).isSome then
      .pfloat ((pyFloatOfString s).getD 0)
    else .pstr s
  | w => w

/-- Lookup of a nested dot path: descend through sub-dicts along the leading
segments and look the final segment up in the mapping reached. -/
def dictGetPath : PyDict → List String → Option PyValue
  | _, [] => none
  | d, [k] => alistGet d k
  | d, k :: k2 :: rest =>
    match alistGet d k with
    | some (.pdict sub) => dictGetPath sub (k2 :: rest)
    | _ => none

/-- The walk to the final segment meets no existing non-dict intermediate
value: each intermediate segment is either absent (a fresh dict will be
created) or already bound to a dict.  This is the condition under which no
overwrite warning is due. -/
def pathClear : PyDict → List String → Bool
  | _, [] => true
  | _, [_] => true
  | d, k :: k2 :: rest =>
    match alistGet d k with
    | some (.pdict sub) => pathClear sub (k2 :: rest)
    | some _ => false
    | none => true

/-- The path q leaves the path p at some segment: both start with the same
segments up to a position where they hold different segments. -/
inductive PathDiverges : List String → List String → Prop
  | head {a b : String} {q p : List String} :
      a ≠ b → PathDiverges (a :: q) (b :: p)
  | cons {a : String} {q p : List String} :
      PathDiverges q p → PathDiverges (a :: q) (a :: p)

/-!  Association-list lemmas shared across the claims. -/

/-- Assignment binds the assigned key. -/
theorem alistGet_alistSet_self {β : Type} (d : List (String × β)) (k : String) (v : β) :
    alistGet (alistSet d k v) k = some v := by
  induction d with
  | nil => simp [alistSet, alistGet]
  | cons hd tl ih =>
    obtain ⟨k', v'⟩ := hd
    by_cases h : k' = k
    · simp [alistSet, alistGet, h]
    · simp [alistSet, alistGet, h, ih]

/-- Assignment leaves every other key's binding unchanged. -/
theorem alistGet_alistSet_ne {β : Type} (d : List (String × β)) (k j : String) (v : β)
    (h : j ≠ k) : alistGet (alistSet d k v) j = alistGet d j := by
  induction d with
  | nil => simp [alistSet, alistGet, Ne.symm h]
  | cons hd tl ih =>
    obtain ⟨k', v'⟩ := hd
    by_cases hk : k' = k
    · subst hk
      simp [alistSet, alistGet, Ne.symm h]
    · by_cases hj : k' = j
      · simp [alistSet, alistGet, hk, hj, h]
      · simp [alistSet, alistGet, hk, hj, ih]

/-- Assigning a key that is not bound appends the binding. -/
theorem alistSet_fresh {β : Type} (d : List (String × β)) (k : String) (v : β)
    (h : alistGet d k = none) : alistSet d k v = d ++ [(k, v)] := by
  induction d with
  | nil => simp [alistSet]
  | cons hd tl ih =>
    obtain ⟨k', v'⟩ := hd
    by_cases hk : k' = k
    · simp [alistGet, hk] at h
    · simp [alistGet, hk] at h
      simp [alistSet, hk, ih h]

/-- Lookup through an appended tail starts in the front list. -/
theorem alistGet_append {β : Type} (d1 d2 : List (String × β)) (k : String) :
    alistGet (d1 ++ d2) k =
      match alistGet d1 k with
      | some v => some v
      | none => alistGet d2 k := by
  induction d1 with
  | nil => simp [alistGet]
  | cons hd tl ih =>
    obtain ⟨k', v'⟩ := hd
    by_cases hk : k' = k
    · simp [alistGet, hk]
    · simp [alistGet, hk, ih]

/-!  Claim theorems. -/

/-- C10: when the project_keys mapping is empty (the falsy case), the rewrite
entry point returns immediately: the filesystem is unchanged and no error is
raised — even when the descriptor file is absent, since the early return
precedes the existence check. -/
theorem c10_empty_project_keys_noop (fs : FileSys) (projectPath : String) :
    apply_project_keys_to_dbt_project_yml fs projectPath [] = .ok fs := rfl

/-- The empty filesystem: every path absent. -/
def fsAbsent : FileSys := fun _ => none

/-- C5 counterexample: at the empty project_keys mapping with an absent
descriptor, the entry point returns successfully instead of raising
FileNotFoundError, so the claim's quantification over every mapping fails at
the empty mapping. -/
theorem c5_counterexample :
    fsAbsent (dbtProjectYmlPath "/proj") = none ∧
    apply_project_keys_to_dbt_project_yml fsAbsent "/proj" [] =
      .ok fsAbsent :=
  ⟨rfl, rfl⟩

/-- C5 (amended to non-empty mappings): for every non-empty project_keys
mapping, the entry point raises FileNotFoundError when the descriptor file
does not exist at the project path, and propagates the YAML error of an
unparseable existing descriptor unchanged. -/
theorem c5_missing_file_and_yaml_errors (fs : FileSys) (projectPath : String)
    (projectKeys : List (String × PyValue))
    (hne : projectKeys.isEmpty = false) :
    (fs (dbtProjectYmlPath projectPath) = none →
      apply_project_keys_to_dbt_project_yml fs projectPath projectKeys =
        .error (.fileNotFound
          ("dbt_project.yml not found at " ++ dbtProjectYmlPath projectPath))) ∧
    (∀ e, fs (dbtProjectYmlPath projectPath) = some (.malformed e) →
      apply_project_keys_to_dbt_project_yml fs projectPath projectKeys =
        .error (.yamlErr e)) := by
  constructor
  · intro h
    simp [apply_project_keys_to_dbt_project_yml, hne, h]
  · intro e h
    simp [apply_project_keys_to_dbt_project_yml, hne, h]

/-- A filesystem whose descriptor file holds unparseable YAML. -/
def fsMalformedOnly : FileSys :=
  fun _ => some (.malformed "mapping values are not allowed here")

/-- C5 witness: both error paths observed at concrete inputs. -/
theorem c5_missing_file_and_yaml_errors_witness :
    apply_project_keys_to_dbt_project_yml fsAbsent "/proj"
        [("name", PyValue.pstr "x")] =
      .error (.fileNotFound
        ("dbt_project.yml not found at " ++ dbtProjectYmlPath "/proj")) ∧
    apply_project_keys_to_dbt_project_yml fsMalformedOnly "/proj"
        [("name", PyValue.pstr "x")] =
      .error (.yamlErr "mapping values are not allowed here") :=
  ⟨(c5_missing_file_and_yaml_errors fsAbsent "/proj"
      [("name", PyValue.pstr "x")] rfl).1 rfl,
   (c5_missing_file_and_yaml_errors fsMalformedOnly "/proj"
      [("name", PyValue.pstr "x")] rfl).2
      "mapping values are not allowed here" rfl⟩

/-- C2: the mode selector returns false whenever the feature flag is false,
regardless of size; with the flag true it returns true exactly when the
manifest byte size reaches the threshold converted from megabytes to bytes
(threshold 0 meaning always) and the incremental-decoding capability is
available; an unavailable capability yields false, never an error. -/
theorem c2_mode_selection (flag : Bool) (thresholdMb sizeBytes : Nat) (cap : Bool) :
    (flag = false →
      _should_use_streaming_manifest_mode flag thresholdMb sizeBytes cap = false) ∧
    (flag = true →
      (_should_use_streaming_manifest_mode flag thresholdMb sizeBytes cap = true ↔
        (thresholdMb * 1024 * 1024 ≤ sizeBytes ∧ cap = true))) ∧
    (cap = false →
      _should_use_streaming_manifest_mode flag thresholdMb sizeBytes cap = false) := by
  refine ⟨fun h => by simp [_should_use_streaming_manifest_mode, h],
    fun h => ?_, fun h => ?_⟩
  · subst h
    by_cases hlt : sizeBytes < thresholdMb * 1024 * 1024
    · simp [_should_use_streaming_manifest_mode, hlt]
    · simp [_should_use_streaming_manifest_mode, hlt]
      intro _
      omega
  · subst h
    unfold _should_use_streaming_manifest_mode
    cases flag <;> simp

/-- C2 witness: the three regimes at concrete inputs — flag on with zero
threshold and the capability present streams, flag off never streams, and a
missing capability never streams. -/
theorem c2_mode_selection_witness :
    _should_use_streaming_manifest_mode true 0 2048 true = true ∧
    _should_use_streaming_manifest_mode false 25 1000000000 true = false ∧
    _should_use_streaming_manifest_mode true 25 1000000000 false = false :=
  ⟨((c2_mode_selection true 0 2048 true).2.1 rfl).mpr
      ⟨by decide, rfl⟩,
   (c2_mode_selection false 25 1000000000 true).1 rfl,
   (c2_mode_selection true 25 1000000000 false).2.2 rfl⟩

/-- C6: the node constructor returns absent — not an error — exactly on a
missing or empty file path; with a non-empty file path it returns a node
whose fields come from the record, with missing depends_on, tags and config
defaulted, and with every unrecognized resource-type string mapped to the
catch-all variant. -/
theorem c6_create_node_spec (uid : String) (record : RawNodeRecord) :
    ((record.original_file_path = none ∨ record.original_file_path = some "") →
      _create_node_from_dict uid record = none) ∧
    (∀ fp, record.original_file_path = some fp → fp ≠ "" →
      ∃ n, _create_node_from_dict uid record = some n ∧
        n.unique_id = uid ∧
        n.resource_type = parseResourceType (record.resource_type.getD "") ∧
        n.package_name = record.package_name.getD "" ∧
        n.file_path = fp ∧
        n.depends_on = record.depends_on_nodes.getD [] ∧
        n.tags = record.tags.getD [] ∧
        n.config = record.config.getD []) ∧
    (∀ srt, srt ∉ knownResourceTypes → parseResourceType srt = .other) := by
  refine ⟨?_, ?_, ?_⟩
  · intro h
    rcases h with h | h <;> simp [_create_node_from_dict, h]
  · intro fp hfp hne
    refine ⟨{ unique_id := uid
              resource_type := parseResourceType (record.resource_type.getD "")
              package_name := record.package_name.getD ""
              file_path := fp
              depends_on := record.depends_on_nodes.getD []
              tags := record.tags.getD []
              config := record.config.getD [] }, ?_, rfl, rfl, rfl, rfl, rfl, rfl, rfl⟩
    simp [_create_node_from_dict, hfp, hne]
  · intro srt hsrt
    simp [knownResourceTypes] at hsrt
    obtain ⟨h1, h2, h3, h4, h5, h6, h7⟩ := hsrt
    simp [parseResourceType, h1, h2, h3, h4, h5, h6, h7]

/-- An external-reference record: well-formed but with no file path. -/
def c6ExternalRecord : RawNodeRecord :=
  { resource_type := some "model", package_name := some "external_package",
    depends_on_nodes := some [], tags := some [], config := some [] }

/-- C6 witness: the external-reference record produces no node. -/
theorem c6_create_node_spec_witness :
    _create_node_from_dict "model.external_package.ext_model" c6ExternalRecord =
      none :=
  (c6_create_node_spec "model.external_package.ext_model" c6ExternalRecord).1
    (Or.inl rfl)

/-- C7: every assembled graph has its filtered keys among its node keys, and
with no selector requested the filtered mapping is the full node mapping. -/
theorem c7_filtered_subset (nodes : List (String × DbtNode)) (defs : SelectorDefs)
    (selector : Option String) (g : Graph)
    (h : assembleGraph nodes defs selector = .ok g) :
    (∀ k, k ∈ g.filtered_nodes.map Prod.fst → k ∈ g.nodes.map Prod.fst) ∧
    (selector = none → g.filtered_nodes = g.nodes) := by
  cases selector with
  | none =>
    simp [assembleGraph] at h
    subst h
    exact ⟨fun k hk => hk, fun _ => rfl⟩
  | some name =>
    cases hr : resolveSelector defs name with
    | error e => simp [assembleGraph, hr] at h
    | ok ids =>
      simp [assembleGraph, hr] at h
      subst h
      constructor
      · intro k hk
        rcases List.mem_map.1 hk with ⟨x, hx, rfl⟩
        exact List.mem_map.2 ⟨x, (List.mem_filter.1 hx).1, rfl⟩
      · intro hn
        cases hn

/-- One fully-populated node, as in the specification's scenario A. -/
def c7Node : DbtNode :=
  { unique_id := "model.jaffle_shop.customers", resource_type := .model,
    package_name := "jaffle_shop", file_path := "models/customers.sql",
    depends_on := ["model.jaffle_shop.stg_customers"], tags := ["daily"],
    config := [("materialized", PyValue.pstr "table")] }

/-- A one-node mapping for the assembler witnesses. -/
def c7Nodes : List (String × DbtNode) := [("model.jaffle_shop.customers", c7Node)]

/-- The graph the assembler builds from that mapping with no selector. -/
def c7Graph : Graph := { nodes := c7Nodes, filtered_nodes := c7Nodes }

/-- C7 witness: with no selector requested the assembled graph's filtered
mapping is its full node mapping. -/
theorem c7_filtered_subset_witness :
    c7Graph.filtered_nodes = c7Graph.nodes :=
  (c7_filtered_subset c7Nodes [] none c7Graph rfl).2 rfl

/-- A well-formed one-node manifest document, used as decoder input. -/
def sampleManifestStr : String :=
  "\x7b\"nodes\": \x7b\"model.jaffle_shop.customers\": \x7b\"original_file_path\": \"models/customers.sql\"\x7d\x7d\x7d"

/-- The structured manifest that document decodes to. -/
def sampleManifest : Manifest :=
  { nodes := [("model.jaffle_shop.customers",
      { original_file_path := some "models/customers.sql" })],
    sources := [] }

/-- C8: when a selector name is requested but no definition with that name
exists, the load fails with SelectorNotFound, the message includes the
requested name, and no graph is returned. -/
theorem c8_selector_not_found (s : String) (m : Manifest) (defs : SelectorDefs)
    (name : String) (useStreaming : Bool)
    (hm : parseManifest s = some m) (hn : alistGet defs name = none) :
    loadDbtGraph s defs (some name) useStreaming =
      .error (.selectorNotFound ("Selectors not found: " ++ name)) ∧
    strIncludes ("Selectors not found: " ++ name) name := by
  constructor
  · cases useStreaming <;>
      simp [loadDbtGraph, load_from_dbt_manifest, load_from_dbt_manifest_streaming,
        hm, assembleGraph, resolveSelector, hn]
  · exact ⟨"Selectors not found: ", rfl⟩

/-- C8 witness: requesting an undefined selector over the sample manifest
fails with SelectorNotFound carrying the requested name. -/
theorem c8_selector_not_found_witness :
    loadDbtGraph sampleManifestStr [] (some "nonexistent_selector") false =
      .error (.selectorNotFound
        ("Selectors not found: " ++ "nonexistent_selector")) :=
  (c8_selector_not_found sampleManifestStr sampleManifest []
    "nonexistent_selector" false rfl rfl).1

/-- C9: whenever the manifest bytes do not decode as JSON, the standard and
the streaming decode paths both fail with MalformedManifest, and the load
pipeline returns no graph in either mode. -/
theorem c9_malformed_manifest (s : String) (h : jsonLoads s = none) :
    load_from_dbt_manifest s = .error .malformedManifest ∧
    load_from_dbt_manifest_streaming s = .error .malformedManifest ∧
    (∀ defs selector useStreaming,
      loadDbtGraph s defs selector useStreaming = .error .malformedManifest) := by
  have hp : parseManifest s = none := by simp [parseManifest, h]
  refine ⟨?_, ?_, ?_⟩
  · simp [load_from_dbt_manifest, hp]
  · simp [load_from_dbt_manifest_streaming, hp]
  · intro defs selector useStreaming
    cases useStreaming <;>
      simp [loadDbtGraph, load_from_dbt_manifest, load_from_dbt_manifest_streaming, hp]

/-- The malformed manifest bytes of the specification's scenario E. -/
def invalidManifestStr : String := "\x7binvalid json"

/-- C9 witness: the scenario E bytes fail through both decoders. -/
theorem c9_malformed_manifest_witness :
    load_from_dbt_manifest invalidManifestStr = .error .malformedManifest ∧
    load_from_dbt_manifest_streaming invalidManifestStr =
      .error .malformedManifest :=
  ⟨(c9_malformed_manifest invalidManifestStr rfl).1,
   (c9_malformed_manifest invalidManifestStr rfl).2.1⟩

/-- The numeric fallback of the conversion heuristic agrees with the claim's
ordering of the int and float cases: the two guards are disjoint on the
decimal point, so trying float-on-point first (as the code does) and listing
int-without-point first (as the claim does) coincide. -/
theorem convert_numeric_eq (s : String) :
    (if containsDot s then
       match pyFloatOfString s with
       | some q => PyValue.pfloat q
       | none => PyValue.pstr s
     else
       match pyIntOfString s with
       | some n => PyValue.pint n
       | none => PyValue.pstr s) =
    (if containsDot s = false ∧ (pyIntOfString s).isSome then
       PyValue.pint ((pyIntOfString s).getD 0)
     else if containsDot s = true ∧ (pyFloatOfString s).isSome then
       PyValue.pfloat ((pyFloatOfString s).getD 0)
     else PyValue.pstr s) := by
  cases hd : containsDot s
  · cases hi : pyIntOfString s <;> simp [hd, hi]
  · cases hf : pyFloatOfString s <;> simp [hd, hf]

/-- C3: the conversion heuristic returns, for every string, exactly what the
claim's case list prescribes — boolean words, null words, parsed JSON for
bracket-opened strings that parse, int for point-free integer strings, float
for point-bearing float strings, the original string otherwise — and returns
non-string values unchanged. -/
theorem c3_convert_yaml_value_spec (v : PyValue) :
    _convert_yaml_value v = convertYamlValueSpec v := by
  cases v
  case pstr s =>
    simp only [_convert_yaml_value, convertYamlValueSpec]
    by_cases h1 : pyLower s = "true" ∨ pyLower s = "yes" ∨ pyLower s = "on"
    · simp only [if_pos h1]
    · simp only [if_neg h1]
      by_cases h2 : pyLower s = "false" ∨ pyLower s = "no" ∨ pyLower s = "off"
      · simp only [if_pos h2]
      · simp only [if_neg h2]
        by_cases h3 : pyLower s = "null" ∨ pyLower s = "none" ∨ pyLower s = "~" ∨
          pyLower s = ""
        · simp only [if_pos h3]
        · simp only [if_neg h3]
          cases hb : startsWithJsonBracket s
          · simp only [hb, Bool.false_eq_true, if_false, false_and, if_neg,
              not_false_eq_true]
            exact convert_numeric_eq s
          · cases hj : jsonLoads s
            · simp only [hb, if_true, hj, Option.isSome_none, and_false, if_neg,
                not_false_eq_true]
              exact convert_numeric_eq s
            · simp [hb, hj]
  all_goals rfl

/-- Setting any dot path always rewrites the head key, whatever the walk
finds there. -/
theorem setNestedKeyGo_shape (d : PyDict) (b : String) (p : List String)
    (v : PyValue) :
    ∃ X, (setNestedKeyGo d (b :: p) v).1 = alistSet d b X := by
  cases p with
  | nil => exact ⟨_, rfl⟩
  | cons k2 rest =>
    simp only [setNestedKeyGo]
    split
    · exact ⟨_, rfl⟩
    · exact ⟨_, rfl⟩
    · exact ⟨_, rfl⟩

/-- Diverging paths are built from nonempty lists. -/
theorem pathDiverges_ne_nil {q p : List String} (h : PathDiverges q p) :
    q ≠ [] ∧ p ≠ [] := by
  cases h <;> exact ⟨by simp, by simp⟩

/-- No nonempty path resolves in the empty mapping. -/
theorem dictGetPath_empty (q : List String) (h : q ≠ []) :
    dictGetPath ([] : PyDict) q = none := by
  cases q with
  | nil => exact absurd rfl h
  | cons k rest => cases rest <;> simp [dictGetPath, alistGet]

/-- Every intermediate walk over the empty mapping is clear of overwrites. -/
theorem pathClear_empty (p : List String) : pathClear ([] : PyDict) p = true := by
  cases p with
  | nil => rfl
  | cons k rest => cases rest <;> simp [pathClear, alistGet]

/-- After the walk, the full dot path resolves to the converted value. -/
theorem setNestedKeyGo_getPath (segs : List String) (d : PyDict) (v : PyValue)
    (hne : segs ≠ []) :
    dictGetPath (setNestedKeyGo d segs v).1 segs =
      some (_convert_yaml_value v) := by
  induction segs generalizing d with
  | nil => exact absurd rfl hne
  | cons k rest ih =>
    cases rest with
    | nil =>
      simp [setNestedKeyGo, dictGetPath, alistGet_alistSet_self]
    | cons k2 rest2 =>
      have hstep : ∀ sub : PyDict,
          dictGetPath
            (alistSet d k (PyValue.pdict (setNestedKeyGo sub (k2 :: rest2) v).1))
            (k :: k2 :: rest2) = some (_convert_yaml_value v) := by
        intro sub
        have hsel := alistGet_alistSet_self d k
          (PyValue.pdict (setNestedKeyGo sub (k2 :: rest2) v).1)
        simp only [dictGetPath, hsel]
        exact ih sub (by simp)
      simp only [setNestedKeyGo]
      split
      · exact hstep _
      · exact hstep []
      · exact hstep []

/-- Frame property of the walk: any path that leaves the written path at some
segment resolves to exactly what it resolved to before the write. -/
theorem setNestedKeyGo_frame {q p : List String} (hdiv : PathDiverges q p)
    (d : PyDict) (v : PyValue) :
    dictGetPath (setNestedKeyGo d p v).1 q = dictGetPath d q := by
  induction hdiv generalizing d with
  | @head a b q1 p1 hne =>
    obtain ⟨X, hX⟩ := setNestedKeyGo_shape d b p1 v
    rw [hX]
    have hget : alistGet (alistSet d b X) a = alistGet d a :=
      alistGet_alistSet_ne d b a X hne
    cases q1 with
    | nil => simpa only [dictGetPath] using hget
    | cons q2 qs =>
      simp only [dictGetPath]
      rw [hget]
  | @cons a q1 p1 hdiv1 ih =>
    obtain ⟨hq, hp⟩ := pathDiverges_ne_nil hdiv1
    cases p1 with
    | nil => exact absurd rfl hp
    | cons k2 rest =>
      cases q1 with
      | nil => exact absurd rfl hq
      | cons q2 qs =>
        have hsub : ∀ sub : PyDict,
            dictGetPath
              (alistSet d a (PyValue.pdict (setNestedKeyGo sub (k2 :: rest) v).1))
              (a :: q2 :: qs) =
              dictGetPath (setNestedKeyGo sub (k2 :: rest) v).1 (q2 :: qs) := by
          intro sub
          have hsel := alistGet_alistSet_self d a
            (PyValue.pdict (setNestedKeyGo sub (k2 :: rest) v).1)
          simp only [dictGetPath, hsel]
        cases hg : alistGet d a with
        | none =>
          simp only [setNestedKeyGo, hg]
          rw [hsub [], ih [],
            dictGetPath_empty (q2 :: qs) (List.cons_ne_nil _ _)]
          simp [dictGetPath, hg]
        | some val =>
          cases val
          case pdict sub =>
            simp only [setNestedKeyGo, hg]
            rw [hsub sub, ih sub]
            simp [dictGetPath, hg]
          all_goals
            (simp only [setNestedKeyGo, hg]
             rw [hsub [], ih [],
               dictGetPath_empty (q2 :: qs) (List.cons_ne_nil _ _)]
             simp [dictGetPath, hg])

/-- The warning boolean is set exactly when the walk meets an existing
non-dict intermediate value. -/
theorem setNestedKeyGo_warn (segs : List String) (d : PyDict) (v : PyValue)
    (hne : segs ≠ []) :
    (setNestedKeyGo d segs v).2 = !(pathClear d segs) := by
  induction segs generalizing d with
  | nil => exact absurd rfl hne
  | cons k rest ih =>
    cases rest with
    | nil => simp [setNestedKeyGo, pathClear]
    | cons k2 rest2 =>
      cases hg : alistGet d k with
      | none =>
        simp only [setNestedKeyGo, hg, pathClear]
        rw [ih [] (by simp), pathClear_empty]
      | some val =>
        cases val
        case pdict sub =>
          simp only [setNestedKeyGo, hg, pathClear]
          exact ih sub (by simp)
        all_goals
          simp [setNestedKeyGo, hg, pathClear]

/-- C4: setting a dot-notated key binds the full segment path to the
converted value, every path diverging from the written one keeps its
previous resolution, and the overwrite warning is emitted exactly when the
walk meets an existing non-dict intermediate value. -/
theorem c4_set_nested_key (d : PyDict) (key : String) (v : PyValue)
    (segs : List String) (hs : segs = splitOnDot key) (hne : segs ≠ []) :
    dictGetPath (_set_nested_key d key v).1 segs =
      some (_convert_yaml_value v) ∧
    (∀ q, PathDiverges q segs →
      dictGetPath (_set_nested_key d key v).1 q = dictGetPath d q) ∧
    ((_set_nested_key d key v).2 = true ↔ pathClear d segs = false) := by
  subst hs
  refine ⟨setNestedKeyGo_getPath _ d v hne,
    fun q hq => setNestedKeyGo_frame hq d v, ?_⟩
  show (setNestedKeyGo d (splitOnDot key) v).2 = true ↔
    pathClear d (splitOnDot key) = false
  rw [setNestedKeyGo_warn _ d v hne]
  cases pathClear d (splitOnDot key) <;> simp

/-- A configuration whose models key holds a scalar, as in the overwrite
scenario of the tests. -/
def c4Dict : PyDict := [("models", PyValue.pint 5), ("name", PyValue.pstr "p")]

/-- C4 witness: writing models.proj.materialized over a scalar models key
binds the path, emits the overwrite warning, and leaves the name key
untouched. -/
theorem c4_set_nested_key_witness :
    dictGetPath
        (_set_nested_key c4Dict "models.proj.materialized" (PyValue.pstr "table")).1
        ["models", "proj", "materialized"] = some (PyValue.pstr "table") ∧
    dictGetPath
        (_set_nested_key c4Dict "models.proj.materialized" (PyValue.pstr "table")).1
        ["name"] = dictGetPath c4Dict ["name"] ∧
    (_set_nested_key c4Dict "models.proj.materialized" (PyValue.pstr "table")).2 =
      true := by
  have h := c4_set_nested_key c4Dict "models.proj.materialized"
    (PyValue.pstr "table") ["models", "proj", "materialized"] rfl (by decide)
  exact ⟨h.1, h.2.1 ["name"] (PathDiverges.head (by decide)), h.2.2.mpr rfl⟩

/-- Folding the entry stream into an accumulator whose keys are disjoint from
the stream's (themselves duplicate-free) appends exactly the retained
constructor results. -/
theorem streaming_foldl_append (l : List (String × RawNodeRecord)) :
    ∀ acc : List (String × DbtNode),
      (∀ k, k ∈ l.map Prod.fst → alistGet acc k = none) →
      (l.map Prod.fst).Nodup →
      l.foldl streamingStep acc = acc ++ l.filterMap mkNodeEntry := by
  induction l with
  | nil => intro acc _ _; simp
  | cons e rest ih =>
    intro acc hfresh hnd
    have hnd' : e.1 ∉ rest.map Prod.fst ∧ (rest.map Prod.fst).Nodup := by
      rw [List.map_cons, List.nodup_cons] at hnd
      exact hnd
    simp only [List.foldl_cons]
    cases hmk : _create_node_from_dict e.1 e.2 with
    | none =>
      have hstep : streamingStep acc e = acc := by simp [streamingStep, hmk]
      rw [hstep, ih acc (fun k hk => hfresh k (by simp [hk])) hnd'.2]
      congr 1
      simp [List.filterMap_cons, mkNodeEntry, hmk]
    | some n =>
      have hfr : alistGet acc e.1 = none := hfresh e.1 (by simp)
      have hstep : streamingStep acc e = acc ++ [(e.1, n)] := by
        simp [streamingStep, hmk, alistSet_fresh acc e.1 n hfr]
      have hfresh2 : ∀ k, k ∈ rest.map Prod.fst →
          alistGet (acc ++ [(e.1, n)]) k = none := by
        intro k hk
        have hke : k ≠ e.1 := by
          intro heq
          exact hnd'.1 (heq ▸ hk)
        rw [alistGet_append, hfresh k (by simp [hk])]
        simp [alistGet, Ne.symm hke]
      rw [hstep, ih (acc ++ [(e.1, n)]) hfresh2 hnd'.2, List.append_assoc]
      congr 1
      simp [List.filterMap_cons, mkNodeEntry, hmk]

/-- With duplicate-free keys (the well-formedness of a manifest), the
streaming decode of the entry stream is exactly the standard decode. -/
theorem streaming_eq_standard (m : Manifest)
    (hnd : ((m.nodes ++ m.sources).map Prod.fst).Nodup) :
    streaming_decode (manifestEvents m) = standard_decode m := by
  unfold streaming_decode manifestEvents standard_decode
  rw [streaming_foldl_append _ [] (fun k _ => rfl) hnd]
  simp

/-- C1: on any well-formed manifest (duplicate-free unique ids), the
streaming decode path and the standard decode path produce the same node
mapping — the same result, the same key sequence, the same node at every
unique id, field for field. -/
theorem c1_streaming_matches_standard (s : String) (m : Manifest)
    (h1 : parseManifest s = some m)
    (h2 : ((m.nodes ++ m.sources).map Prod.fst).Nodup) :
    load_from_dbt_manifest_streaming s = load_from_dbt_manifest s ∧
    (streaming_decode (manifestEvents m)).map Prod.fst =
      (standard_decode m).map Prod.fst ∧
    (∀ uid, alistGet (streaming_decode (manifestEvents m)) uid =
      alistGet (standard_decode m) uid) ∧
    (∀ uid n1 n2,
      alistGet (streaming_decode (manifestEvents m)) uid = some n1 →
      alistGet (standard_decode m) uid = some n2 →
      n1.unique_id = n2.unique_id ∧ n1.resource_type = n2.resource_type ∧
      n1.package_name = n2.package_name ∧ n1.depends_on = n2.depends_on ∧
      n1.tags = n2.tags ∧ n1.config = n2.config) := by
  have he := streaming_eq_standard m h2
  refine ⟨?_, by rw [he], fun uid => by rw [he], ?_⟩
  · simp [load_from_dbt_manifest, load_from_dbt_manifest_streaming, h1, he]
  · intro uid n1 n2 ha hb
    rw [he, hb] at ha
    cases ha
    exact ⟨rfl, rfl, rfl, rfl, rfl, rfl⟩

/-- C1 witness: both decode paths agree on the sample manifest document. -/
theorem c1_streaming_matches_standard_witness :
    load_from_dbt_manifest_streaming sampleManifestStr =
      load_from_dbt_manifest sampleManifestStr :=
  (c1_streaming_matches_standard sampleManifestStr sampleManifest rfl
    (by decide)).1

end Cosmos
